import Mathlib

/-!
# Verification of the automate-dns resolver service

A shallow embedding of the resolver-record API: payload validation
(`validateResolverPayload` with the dotted-quad IPv4 pattern), the record
store with soft-delete semantics, the HTTP-level handlers for
create/update/delete/get/list (`createResolverHandler` and friends), the
query-parameter parsers (`parseLimit`, `parseOffset`, `parseBoolean`), and
the DNS reconciler (`syncDnsRecord`).

Timestamps (`CURRENT_TIMESTAMP`) are modelled as a `Nat` clock value passed
to each handler.  The D1 database table is a list of rows plus the
auto-increment counter.  The JSON request body is modelled by the four
recognized keys, each either absent, bound to a string, or bound to some
non-string value (the code only ever tests `typeof v === "string"`).
The external DNS call made by the handlers is abstracted by an outcome
oracle `dnsOk : String → String → Bool` together with the list of (hostname,
ipv4) calls each handler performs; the reconciler's own algorithm is
modelled separately as `syncDnsRecord`.
-/

set_option maxRecDepth 20000

namespace AutomateDns

/-! ## JavaScript value and string primitives -/

/-- A JSON value bound to a recognized body key: a string, or anything else.
The source only ever distinguishes `typeof v === "string"`. -/
inductive JVal where
  | str (s : String)
  | nonstr
deriving DecidableEq

/-- The whitespace characters stripped by JavaScript `String.prototype.trim`
(the ASCII portion, which is all the claims exercise). -/
def isJsSpace (c : Char) : Bool :=
  c == ' ' || c == '\t' || c == '\n' || c == '\r' || c == '\x0b' || c == '\x0c'

/-- JavaScript `s.trim()`. -/
def jsTrim (s : String) : String :=
  ⟨((s.data.dropWhile isJsSpace).reverse.dropWhile isJsSpace).reverse⟩

/-- ASCII lower-casing of one character, as `String.prototype.toLowerCase`
acts on the ASCII range. -/
def asciiLower (c : Char) : Char :=
  if 65 ≤ c.toNat && c.toNat ≤ 90 then Char.ofNat (c.toNat + 32) else c

/-- JavaScript `s.toLowerCase()` restricted to ASCII. -/
def jsToLower (s : String) : String := ⟨s.data.map asciiLower⟩

/-- `typeof v === "string" ? v.trim() : ""` — the coercion every field
validator applies. -/
def coerceTrim : JVal → String
  | .str s => jsTrim s
  | .nonstr => ""

/-! ## The IPv4 pattern

`IPV4_REGEX = /^(25[0-5]|2[0-4]\d|1\d\d|[1-9]?\d)(\.(25[0-5]|2[0-4]\d|1\d\d|[1-9]?\d)){3}$/`

An anchored match of this regex decomposes the subject uniquely at the dots
(no octet alternative can contain a dot), so the test is embedded as: split
on the dot character and check that exactly four parts result, each matching
the octet alternation. -/

/-- `\d` (code points 48–57). -/
def isDigitChar (c : Char) : Bool := 48 ≤ c.toNat && c.toNat ≤ 57

/-- Whole-string match of the octet alternation
`25[0-5]|2[0-4]\d|1\d\d|[1-9]?\d`, grouped by length: one character is
`\d`, two characters are `[1-9]\d` (codes 49–57 then a digit), three
characters are one of the three-digit alternatives. -/
def validOctet : List Char → Bool
  | [c] => isDigitChar c
  | [c, d] => (49 ≤ c.toNat && c.toNat ≤ 57) && isDigitChar d
  | [c, d, e] =>
      ((c == '2') && (d == '5') && (48 ≤ e.toNat && e.toNat ≤ 53)) ||
      ((c == '2') && (48 ≤ d.toNat && d.toNat ≤ 52) && isDigitChar e) ||
      ((c == '1') && isDigitChar d && isDigitChar e)
  | _ => false

/-- Split a character list at every dot; always returns at least one part. -/
def splitOnDot : List Char → List (List Char)
  | [] => [[]]
  | c :: cs =>
    if c = '.' then [] :: splitOnDot cs
    else
      match splitOnDot cs with
      | [] => [[c]]
      | p :: ps => (c :: p) :: ps

/-- Rejoin parts with dots: the inverse of `splitOnDot`. -/
def joinDots : List (List Char) → List Char
  | [] => []
  | [p] => p
  | p :: ps => p ++ '.' :: joinDots ps

/-- Anchored match of `IPV4_REGEX` on a character list. -/
def ipv4Chars (cs : List Char) : Bool :=
  match splitOnDot cs with
  | [a, b, c, d] => validOctet a && validOctet b && validOctet c && validOctet d
  | _ => false

/-- `IPV4_REGEX.test s`. -/
def ipv4RegexTest (s : String) : Bool := ipv4Chars s.data

/-- The canonical dotted-quad rendering of four octet values. -/
def mkDottedQuad (a b c d : Nat) : String :=
  Nat.repr a ++ "." ++ Nat.repr b ++ "." ++ Nat.repr c ++ "." ++ Nat.repr d

/-! ## Payload validation -/

/-- The recognized keys of a parsed JSON request body; unrecognized keys are
never read by the validator, so they are not represented. -/
structure Body where
  provider : Option JVal := none
  hostname : Option JVal := none
  «alias» : Option JVal := none
  ipv4 : Option JVal := none
deriving DecidableEq

/-- The `fields` map the validator accumulates (`ResolverPayload`). -/
structure Fields where
  provider : Option String := none
  hostname : Option String := none
  «alias» : Option String := none
  ipv4 : Option String := none
deriving DecidableEq

/-- `!Object.keys(fields).length`. -/
def Fields.isEmpty (f : Fields) : Bool :=
  f.provider.isNone && f.hostname.isNone && f.«alias».isNone && f.ipv4.isNone

structure ValidateOptions where
  requireProvider : Bool := false
  requireHostname : Bool := false
  requireAnyField : Bool := false
deriving DecidableEq

def createOpts : ValidateOptions := ⟨true, true, false⟩
def updateOpts : ValidateOptions := ⟨false, false, true⟩

def anyFieldMsg : String :=
  "At least one updatable field (provider, hostname, alias, ipv4) is required"

/-- The `provider` block of `validateResolverPayload`: the validated value
(if any) and the errors pushed. -/
def validateProvider (v : Option JVal) (required : Bool) :
    Option String × List String :=
  match v with
  | some jv =>
    let p := coerceTrim jv
    if p = "" then (none, ["provider cannot be empty"]) else (some p, [])
  | none => (none, if required then ["provider is required"] else [])

/-- The `hostname` block of `validateResolverPayload`. -/
def validateHostname (v : Option JVal) (required : Bool) :
    Option String × List String :=
  match v with
  | some jv =>
    let h := coerceTrim jv
    if h = "" then (none, ["hostname cannot be empty"]) else (some h, [])
  | none => (none, if required then ["hostname is required"] else [])

/-- The `ipv4` block of `validateResolverPayload`: a present non-string
coerces to `""`, which is accepted (meaning unset); a non-empty value must
match the IPv4 pattern. -/
def validateIpv4 (v : Option JVal) : Option String × List String :=
  match v with
  | some jv =>
    let ip := coerceTrim jv
    if ip ≠ "" && !ipv4RegexTest ip then
      (none, ["ipv4 must be a valid IPv4 address"])
    else (some ip, [])
  | none => (none, [])

/-- `validateResolverPayload(body, options)`: the normalized field map and
the error strings, pushed in source order (provider, hostname, ipv4, then
the at-least-one-field check against the accumulated `fields`). -/
def validateResolverPayload (body : Body) (opts : ValidateOptions) :
    Fields × List String :=
  let p := validateProvider body.provider opts.requireProvider
  let h := validateHostname body.hostname opts.requireHostname
  let a := body.«alias».map coerceTrim
  let i := validateIpv4 body.ipv4
  let fields : Fields := ⟨p.1, h.1, a, i.1⟩
  (fields,
    p.2 ++ h.2 ++ i.2 ++
      (if opts.requireAnyField && fields.isEmpty then [anyFieldMsg] else []))

/-! ## The record store -/

/-- One row of the `resolvers` table.  The SQLite `is_deleted` integer only
ever holds 0 or 1 (default 0, soft delete writes 1), so it is modelled as a
`Bool`; timestamps are a `Nat` clock. -/
structure ResolverRow where
  id : Nat
  provider : String
  hostname : String
  «alias» : String
  ipv4 : String
  isDeleted : Bool
  mtime : Nat
  ctime : Nat
deriving DecidableEq

/-- The D1 table plus the auto-increment counter. -/
structure Store where
  rows : List ResolverRow
  nextId : Nat
deriving DecidableEq

/-- The JSON shape of a returned record (`toResolverDto`). -/
structure ResolverDto where
  id : Nat
  provider : String
  hostname : String
  «alias» : String
  ipv4 : String
  isDeleted : Bool
  mtime : Nat
  ctime : Nat
deriving DecidableEq

def toResolverDto (r : ResolverRow) : ResolverDto :=
  ⟨r.id, r.provider, r.hostname, r.«alias», r.ipv4, r.isDeleted, r.mtime, r.ctime⟩

/-- The `WHERE id = ? AND is_deleted = 0` predicate used by update and
soft delete. -/
def updMatch (id : Nat) (r : ResolverRow) : Bool :=
  r.id == id && !r.isDeleted

/-- `findResolverById`: `SELECT ... WHERE id = ? [AND is_deleted = 0] LIMIT 1`. -/
def findResolverById (st : Store) (id : Nat) (includeDeleted : Bool) :
    Option ResolverRow :=
  st.rows.find? fun r => r.id == id && (includeDeleted || !r.isDeleted)

/-- Modelled from the spec: the UNIQUE constraint on (provider, hostname)
lives in the repository's SQL migrations, which are not among the given
sources (the handlers only catch its "UNIQUE constraint failed" error).
Per spec §3 the pair is unique among non-deleted records only, so a pair is
taken when some non-deleted row other than `excludeId` carries it. -/
def pairTaken (st : Store) (excludeId : Option Nat) (p h : String) : Bool :=
  st.rows.any fun x =>
    (match excludeId with
     | some i => x.id != i
     | none => true) &&
    !x.isDeleted && x.provider == p && x.hostname == h

/-- `INSERT INTO resolvers ... RETURNING *`: column defaults give
`isDeleted = 0` and `ctime = mtime = CURRENT_TIMESTAMP`; the UNIQUE
constraint (see `pairTaken`) rejects a duplicate pair without mutating. -/
def dbInsert (st : Store) (p h a ip : String) (now : Nat) :
    Except Unit (Store × ResolverRow) :=
  if pairTaken st none p h then .error ()
  else
    let row : ResolverRow := ⟨st.nextId, p, h, a, ip, false, now, now⟩
    .ok (⟨st.rows ++ [row], st.nextId + 1⟩, row)

/-- The row image under `UPDATE ... SET <submitted fields>, mtime =
CURRENT_TIMESTAMP WHERE id = ? AND is_deleted = 0`. -/
def updRow (f : Fields) (id : Nat) (now : Nat) (x : ResolverRow) : ResolverRow :=
  if updMatch id x then
    { x with
      provider := f.provider.getD x.provider
      hostname := f.hostname.getD x.hostname
      «alias» := f.«alias».getD x.«alias»
      ipv4 := f.ipv4.getD x.ipv4
      mtime := now }
  else x

/-- `UPDATE ... RETURNING *` for the resolver update: `none` in the second
component when no non-deleted row matched; `.error` for a UNIQUE-constraint
conflict (see `pairTaken`). -/
def dbUpdate (st : Store) (id : Nat) (f : Fields) (now : Nat) :
    Except Unit (Store × Option ResolverRow) :=
  match st.rows.find? (updMatch id) with
  | none => .ok (st, none)
  | some r =>
    if pairTaken st (some id) (f.provider.getD r.provider)
        (f.hostname.getD r.hostname) then .error ()
    else .ok (⟨st.rows.map (updRow f id now), st.nextId⟩, some (updRow f id now r))

/-- The row image under the soft delete
`UPDATE ... SET is_deleted = 1, mtime = CURRENT_TIMESTAMP`. -/
def delRow (id : Nat) (now : Nat) (x : ResolverRow) : ResolverRow :=
  if updMatch id x then { x with isDeleted := true, mtime := now } else x

/-! ## Handlers -/

/-- What a handler sends back: a record with a status code, a list page, or
a `jsonError` body (message plus the optional `errors` array). -/
inductive ApiResult where
  | record (status : Nat) (dto : ResolverDto)
  | listResult (items : List ResolverDto) (limit offset count : Nat)
  | failure (status : Nat) (message : String) (errors : List String)
deriving DecidableEq

/-- A (hostname, ipv4) pair passed to the DNS reconciler. -/
abbrev DnsCall := String × String

/-- `createResolverHandler`: validate in create mode, insert, then — only
when the created row has a non-empty ipv4 — call the DNS reconciler, whose
outcome the oracle `dnsOk` decides.  A sync failure reports 502 but keeps
the inserted row. -/
def createResolverHandler (st : Store) (body : Body) (now : Nat)
    (dnsOk : String → String → Bool) : Store × List DnsCall × ApiResult :=
  match validateResolverPayload body createOpts with
  | (fields, errors) =>
    if errors ≠ [] then (st, [], .failure 422 "Validation failed" errors)
    else
      match dbInsert st (fields.provider.getD "") (fields.hostname.getD "")
          (fields.«alias».getD "") (fields.ipv4.getD "") now with
      | .error _ =>
        (st, [],
          .failure 409 "A resolver with the same provider and hostname already exists" [])
      | .ok (st', created) =>
        if created.ipv4 ≠ "" then
          if dnsOk created.hostname created.ipv4 then
            (st', [(created.hostname, created.ipv4)], .record 201 (toResolverDto created))
          else
            (st', [(created.hostname, created.ipv4)],
              .failure 502 "Resolver created but DNS sync failed" [])
        else (st', [], .record 201 (toResolverDto created))

/-- `ipv4Changed = fields.ipv4 !== undefined && fields.ipv4 !== current.ipv4`. -/
def ipv4Changed (fields : Fields) (current : ResolverRow) : Bool :=
  match fields.ipv4 with
  | some nv => nv != current.ipv4
  | none => false

/-- `updateResolverHandler`: validate in update mode, fetch the current
non-deleted row, apply the submitted fields, then call the DNS reconciler
exactly when ipv4 was submitted, differs from the pre-update value and the
new value is non-empty.  A sync failure reports 502 but keeps the update. -/
def updateResolverHandler (st : Store) (id : Nat) (body : Body) (now : Nat)
    (dnsOk : String → String → Bool) : Store × List DnsCall × ApiResult :=
  match validateResolverPayload body updateOpts with
  | (fields, errors) =>
    if errors ≠ [] then (st, [], .failure 422 "Validation failed" errors)
    else if fields.isEmpty then (st, [], .failure 422 anyFieldMsg [])
    else
      match findResolverById st id false with
      | none => (st, [], .failure 404 "Resolver not found or already deleted" [])
      | some current =>
        match dbUpdate st id fields now with
        | .error _ =>
          (st, [],
            .failure 409 "Another resolver already uses this provider and hostname" [])
        | .ok (_, none) =>
          (st, [], .failure 404 "Resolver not found or already deleted" [])
        | .ok (st', some updated) =>
          if ipv4Changed fields current && updated.ipv4 ≠ "" then
            if dnsOk updated.hostname updated.ipv4 then
              (st', [(updated.hostname, updated.ipv4)],
                .record 200 (toResolverDto updated))
            else
              (st', [(updated.hostname, updated.ipv4)],
                .failure 502 "Resolver updated but DNS sync failed" [])
          else (st', [], .record 200 (toResolverDto updated))

/-- `deleteResolverHandler`: soft-delete among non-deleted rows; never calls
the DNS reconciler (the empty call list). -/
def deleteResolverHandler (st : Store) (id : Nat) (now : Nat) :
    Store × List DnsCall × ApiResult :=
  match st.rows.find? (updMatch id) with
  | none => (st, [], .failure 404 "Resolver not found or already deleted" [])
  | some r =>
    (⟨st.rows.map (delRow id now), st.nextId⟩, [],
      .record 200 (toResolverDto (delRow id now r)))

/-- `parseBoolean` over `params.get(...)` (null for an absent parameter). -/
def parseBoolean (value : Option String) : Bool :=
  match value with
  | none => false
  | some v => ["1", "true", "yes", "on"].contains (jsToLower (jsTrim v))

/-- `getResolverHandler`, taking the raw `includeDeleted` query parameter. -/
def getResolverHandler (st : Store) (id : Nat)
    (includeDeletedParam : Option String) : ApiResult :=
  match findResolverById st id (parseBoolean includeDeletedParam) with
  | none => .failure 404 "Resolver not found" []
  | some r => .record 200 (toResolverDto r)

/-- `optionalString`: a trimmed-empty or absent filter is no filter. -/
def optionalString (value : Option String) : Option String :=
  match value with
  | none => none
  | some s => let t := jsTrim s; if t = "" then none else some t

/-- `parseLimit(value, fallback, max)`.  The JavaScript `Number` conversion
of the query parameter is modelled as `Option ℚ`: `none` is a non-finite
result (`NaN` from a non-numeric string, or an infinity), `some q` a finite
value — an absent parameter arrives as `some 0` since `Number(null) = 0`.
`Math.floor` on a positive finite number is `Int.toNat ∘ Int.floor`. -/
def parseLimit (value : Option ℚ) (fallback maxv : Nat) : Nat :=
  match value with
  | none => fallback
  | some q => if q ≤ 0 then fallback else min (⌊q⌋).toNat maxv

/-- `parseOffset(value)`, with the input modelled as in `parseLimit`. -/
def parseOffset (value : Option ℚ) : Nat :=
  match value with
  | none => 0
  | some q => if q < 0 then 0 else (⌊q⌋).toNat

/-- Insert a row into a list kept in descending id order. -/
def insertDesc (r : ResolverRow) : List ResolverRow → List ResolverRow
  | [] => [r]
  | x :: xs => if x.id ≤ r.id then r :: x :: xs else x :: insertDesc r xs

/-- `ORDER BY id DESC` as an insertion sort. -/
def sortByIdDesc : List ResolverRow → List ResolverRow
  | [] => []
  | x :: xs => insertDesc x (sortByIdDesc xs)

/-- The WHERE clause of the list query: exclude deleted rows unless
`includeDeleted`, and apply the optional provider/hostname equality filters. -/
def rowMatchesList (includeDeleted : Bool) (pf hf : Option String)
    (r : ResolverRow) : Bool :=
  (includeDeleted || !r.isDeleted) &&
  (match pf with
   | some p => r.provider == p
   | none => true) &&
  (match hf with
   | some h => r.hostname == h
   | none => true)

/-- The raw query parameters of a list request; `limit` and `offset` already
through the JavaScript `Number` conversion as in `parseLimit`. -/
structure ListQuery where
  includeDeleted : Option String := none
  provider : Option String := none
  hostname : Option String := none
  limit : Option ℚ := none
  offset : Option ℚ := none

/-- `listResolversHandler`: filter, order by id descending, then
`LIMIT limit OFFSET offset`. -/
def listResolversHandler (st : Store) (q : ListQuery) : ApiResult :=
  let includeDeleted := parseBoolean q.includeDeleted
  let pf := optionalString q.provider
  let hf := optionalString q.hostname
  let limit := parseLimit q.limit 100 500
  let offset := parseOffset q.offset
  let page :=
    ((sortByIdDesc (st.rows.filter (rowMatchesList includeDeleted pf hf))).drop
        offset).take limit
  .listResult (page.map toResolverDto) limit offset page.length

/-! ## The DNS reconciler (`syncDnsRecord`)

The Cloudflare side is modelled per queried hostname: `existing` is what the
lookup `GET ?type=A&name=hostname` returns (the first matching A-record, if
any), and `ProviderBehavior` says whether the lookup and the write calls
succeed.  The function returns the list of applied provider writes, or the
thrown error message; a failed write applies nothing. -/

structure DnsEnv where
  token : Option String
  zoneId : Option String

/-- A Cloudflare A-record as the reconciler reads it. -/
structure DnsRecord where
  id : String
  content : String
  ttl : Option Nat
  proxied : Option Bool
deriving DecidableEq

structure ProviderBehavior where
  fetchOk : Bool
  writeOk : Bool

inductive DnsWrite where
  | create (content : String) (ttl : Nat) (proxied : Bool)
  | update (recId : String) (content : String) (ttl : Nat) (proxied : Bool)
deriving DecidableEq

/-- JavaScript falsiness of an optional string: absent or empty. -/
def strFalsy : Option String → Bool
  | none => true
  | some s => s == ""

/-- The step of `syncDnsRecord` after the lookup: no-op when the found
record already carries `ipv4`, otherwise a PUT update (preserving the
existing ttl and proxied flag, with defaults 1 and false) or a POST create. -/
def syncWrite (pb : ProviderBehavior) (hostname : String)
    (existing : Option DnsRecord) (ipv4 : String) :
    Except String (List DnsWrite) :=
  match existing with
  | some rec =>
    if rec.content = ipv4 then .ok []
    else if pb.writeOk then
      .ok [.update rec.id ipv4 (rec.ttl.getD 1) (rec.proxied.getD false)]
    else .error ("Failed to update DNS record for " ++ hostname)
  | none =>
    if pb.writeOk then .ok [.create ipv4 1 false]
    else .error ("Failed to create DNS record for " ++ hostname)

/-- `syncDnsRecord(env, hostname, ipv4)`. -/
def syncDnsRecord (env : DnsEnv) (pb : ProviderBehavior) (hostname : String)
    (existing : Option DnsRecord) (ipv4 : String) :
    Except String (List DnsWrite) :=
  if ipv4 = "" then .ok []
  else if strFalsy env.token || strFalsy env.zoneId then .ok []
  else if !pb.fetchOk then .error ("Failed to fetch DNS record for " ++ hostname)
  else syncWrite pb hostname existing ipv4

/-- The provider writes a call applied (none when it threw). -/
def okWrites : Except String (List DnsWrite) → List DnsWrite
  | .ok l => l
  | .error _ => []

/-- How an applied write changes the provider's A-record for the hostname. -/
def applyWrite (existing : Option DnsRecord) (w : DnsWrite) : Option DnsRecord :=
  match w with
  | .create content ttl proxied => some ⟨"fresh", content, some ttl, some proxied⟩
  | .update rid content ttl proxied =>
    match existing with
    | some _ => some ⟨rid, content, some ttl, some proxied⟩
    | none => some ⟨rid, content, some ttl, some proxied⟩

def applyWrites (existing : Option DnsRecord) (ws : List DnsWrite) :
    Option DnsRecord :=
  ws.foldl applyWrite existing

/-! ## The IPv4 pattern accepts exactly the canonical dotted quads -/

theorem char_toNat_inj {a b : Char} (h : a.toNat = b.toNat) : a = b :=
  Char.ext (UInt32.ext h)

theorem repr_digit : ∀ a, a ≤ 9 → (Nat.repr a).data = [Char.ofNat (48 + a)] := by
  decide

theorem repr_two : ∀ a, a ≤ 9 → ∀ b, b ≤ 9 → 1 ≤ a →
    (Nat.repr (10 * a + b)).data = [Char.ofNat (48 + a), Char.ofNat (48 + b)] := by
  decide

theorem repr_three : ∀ a, a ≤ 9 → ∀ b, b ≤ 9 → ∀ e, e ≤ 9 → 1 ≤ a →
    (Nat.repr (100 * a + 10 * b + e)).data =
      [Char.ofNat (48 + a), Char.ofNat (48 + b), Char.ofNat (48 + e)] := by
  decide

theorem ofNat_digit_toNat : ∀ a, a ≤ 9 → (Char.ofNat (48 + a)).toNat = 48 + a := by
  decide

theorem validOctet_repr : ∀ n, n < 256 → validOctet (Nat.repr n).data = true := by
  decide

theorem repr_no_dot : ∀ n, n < 256 → '.' ∉ (Nat.repr n).data := by
  decide

/-- Every string the octet alternation accepts is the canonical decimal
rendering of some value below 256. -/
theorem validOctet_exists (cs : List Char) (h : validOctet cs = true) :
    ∃ n, n < 256 ∧ cs = (Nat.repr n).data := by
  rcases cs with _ | ⟨c, _ | ⟨d, _ | ⟨e, _ | ⟨f, rest⟩⟩⟩⟩
  · simp [validOctet] at h
  · simp only [validOctet, isDigitChar, Bool.and_eq_true, decide_eq_true_eq] at h
    obtain ⟨h1, h2⟩ := h
    refine ⟨c.toNat - 48, by omega, ?_⟩
    rw [repr_digit _ (by omega)]
    have he := ofNat_digit_toNat (c.toNat - 48) (by omega)
    have : c = Char.ofNat (48 + (c.toNat - 48)) := char_toNat_inj (by omega)
    simp [← this]
  · simp only [validOctet, isDigitChar, Bool.and_eq_true, decide_eq_true_eq] at h
    obtain ⟨⟨h1, h2⟩, h3, h4⟩ := h
    refine ⟨10 * (c.toNat - 48) + (d.toNat - 48), by omega, ?_⟩
    rw [repr_two (c.toNat - 48) (by omega) (d.toNat - 48) (by omega) (by omega)]
    have e1 := ofNat_digit_toNat (c.toNat - 48) (by omega)
    have e2 := ofNat_digit_toNat (d.toNat - 48) (by omega)
    have hc : c = Char.ofNat (48 + (c.toNat - 48)) := char_toNat_inj (by omega)
    have hd : d = Char.ofNat (48 + (d.toNat - 48)) := char_toNat_inj (by omega)
    simp [← hc, ← hd]
  · simp only [validOctet, isDigitChar, Bool.or_eq_true, Bool.and_eq_true,
      beq_iff_eq, decide_eq_true_eq] at h
    have hcase : (c = '2' ∧ d = '5' ∧ 48 ≤ e.toNat ∧ e.toNat ≤ 53) ∨
        (c = '2' ∧ (48 ≤ d.toNat ∧ d.toNat ≤ 52) ∧ 48 ≤ e.toNat ∧ e.toNat ≤ 57) ∨
        (c = '1' ∧ (48 ≤ d.toNat ∧ d.toNat ≤ 57) ∧ 48 ≤ e.toNat ∧ e.toNat ≤ 57) := by
      tauto
    have key : 49 ≤ c.toNat ∧ c.toNat ≤ 50 ∧ 48 ≤ d.toNat ∧ d.toNat ≤ 57 ∧
        48 ≤ e.toNat ∧ e.toNat ≤ 57 ∧
        100 * (c.toNat - 48) + 10 * (d.toNat - 48) + (e.toNat - 48) < 256 := by
      have n1 : ('1' : Char).toNat = 49 := by decide
      have n2 : ('2' : Char).toNat = 50 := by decide
      have n5 : ('5' : Char).toNat = 53 := by decide
      rcases hcase with ⟨rfl, rfl, he1, he2⟩ | ⟨rfl, ⟨hd1, hd2⟩, he1, he2⟩ |
          ⟨rfl, ⟨hd1, hd2⟩, he1, he2⟩
      · rw [n2, n5]; omega
      · rw [n2]; omega
      · rw [n1]; omega
    obtain ⟨k1, k2, k3, k4, k5, k6, k7⟩ := key
    refine ⟨100 * (c.toNat - 48) + 10 * (d.toNat - 48) + (e.toNat - 48), k7, ?_⟩
    rw [repr_three (c.toNat - 48) (by omega) (d.toNat - 48) (by omega)
      (e.toNat - 48) (by omega) (by omega)]
    have e1 := ofNat_digit_toNat (c.toNat - 48) (by omega)
    have e2 := ofNat_digit_toNat (d.toNat - 48) (by omega)
    have e3 := ofNat_digit_toNat (e.toNat - 48) (by omega)
    have hc2 : c = Char.ofNat (48 + (c.toNat - 48)) := char_toNat_inj (by omega)
    have hd2 : d = Char.ofNat (48 + (d.toNat - 48)) := char_toNat_inj (by omega)
    have he2 : e = Char.ofNat (48 + (e.toNat - 48)) := char_toNat_inj (by omega)
    simp [← hc2, ← hd2, ← he2]
  · simp [validOctet] at h

theorem splitOnDot_ne_nil (cs : List Char) : splitOnDot cs ≠ [] := by
  induction cs with
  | nil => simp [splitOnDot]
  | cons c cs ih =>
    by_cases hc : c = '.'
    · simp [splitOnDot, hc]
    · simp only [splitOnDot, if_neg hc]
      cases h : splitOnDot cs <;> simp

theorem joinDots_splitOnDot (cs : List Char) : joinDots (splitOnDot cs) = cs := by
  induction cs with
  | nil => rfl
  | cons c cs ih =>
    by_cases hc : c = '.'
    · subst hc
      simp only [splitOnDot, if_pos rfl]
      rcases h : splitOnDot cs with _ | ⟨p, ps⟩
      · exact absurd h (splitOnDot_ne_nil cs)
      · rw [h] at ih
        show '.' :: joinDots (p :: ps) = '.' :: cs
        rw [ih]
    · simp only [splitOnDot, if_neg hc]
      rcases h : splitOnDot cs with _ | ⟨p, ps⟩
      · exact absurd h (splitOnDot_ne_nil cs)
      · rw [h] at ih
        cases ps with
        | nil =>
          show c :: p = c :: cs
          rw [show joinDots [p] = p from rfl] at ih
          rw [ih]
        | cons q qs =>
          show (c :: p) ++ '.' :: joinDots (q :: qs) = c :: cs
          rw [show joinDots (p :: q :: qs) = p ++ '.' :: joinDots (q :: qs) from rfl]
            at ih
          simp [← ih]

theorem splitOnDot_append (xs rest : List Char) (h : '.' ∉ xs) :
    splitOnDot (xs ++ '.' :: rest) = xs :: splitOnDot rest := by
  induction xs with
  | nil => simp [splitOnDot]
  | cons c cs ih =>
    have hc : c ≠ '.' := fun e => h (e ▸ List.mem_cons_self c cs)
    have ih2 := ih fun m => h (List.mem_cons_of_mem c m)
    show splitOnDot (c :: (cs ++ '.' :: rest)) = (c :: cs) :: splitOnDot rest
    simp only [splitOnDot, if_neg hc]
    have ih3 : splitOnDot (cs.append ('.' :: rest)) = cs :: splitOnDot rest := ih2
    simp only [ih2, ih3]

theorem splitOnDot_no_dot (xs : List Char) (h : '.' ∉ xs) :
    splitOnDot xs = [xs] := by
  induction xs with
  | nil => rfl
  | cons c cs ih =>
    have hc : c ≠ '.' := fun e => h (e ▸ List.mem_cons_self c cs)
    have ih2 := ih fun m => h (List.mem_cons_of_mem c m)
    simp only [splitOnDot, if_neg hc, ih2]

/-- The character-level IPv4 pattern accepts exactly the joins of four
canonical octet renderings. -/
theorem ipv4Chars_iff (cs : List Char) :
    ipv4Chars cs = true ↔
      ∃ a b c d, a < 256 ∧ b < 256 ∧ c < 256 ∧ d < 256 ∧
        cs = (Nat.repr a).data ++ '.' :: ((Nat.repr b).data ++ '.' ::
          ((Nat.repr c).data ++ '.' :: (Nat.repr d).data)) := by
  constructor
  · intro h
    rcases hs : splitOnDot cs with _ | ⟨p1, _ | ⟨p2, _ | ⟨p3, _ | ⟨p4, _ | ⟨p5, ps⟩⟩⟩⟩⟩ <;>
      rw [ipv4Chars, hs] at h <;> try exact Bool.noConfusion h
    replace h : (validOctet p1 && validOctet p2 && validOctet p3 &&
      validOctet p4) = true := h
    simp only [Bool.and_eq_true] at h
    obtain ⟨⟨⟨h1, h2⟩, h3⟩, h4⟩ := h
    obtain ⟨a, ha, rfl⟩ := validOctet_exists p1 h1
    obtain ⟨b, hb, rfl⟩ := validOctet_exists p2 h2
    obtain ⟨c, hc, rfl⟩ := validOctet_exists p3 h3
    obtain ⟨d, hd, rfl⟩ := validOctet_exists p4 h4
    refine ⟨a, b, c, d, ha, hb, hc, hd, ?_⟩
    have := joinDots_splitOnDot cs
    rw [hs] at this
    exact this.symm
  · rintro ⟨a, b, c, d, ha, hb, hc, hd, rfl⟩
    rw [ipv4Chars,
      splitOnDot_append _ _ (repr_no_dot a ha),
      splitOnDot_append _ _ (repr_no_dot b hb),
      splitOnDot_append _ _ (repr_no_dot c hc),
      splitOnDot_no_dot _ (repr_no_dot d hd)]
    show (validOctet (Nat.repr a).data && validOctet (Nat.repr b).data &&
      validOctet (Nat.repr c).data && validOctet (Nat.repr d).data) = true
    simp [validOctet_repr a ha, validOctet_repr b hb, validOctet_repr c hc,
      validOctet_repr d hd]

/-- `IPV4_REGEX` accepts exactly the canonical dotted-quad strings of four
octet values below 256. -/
theorem ipv4RegexTest_iff (s : String) :
    ipv4RegexTest s = true ↔
      ∃ a b c d, a < 256 ∧ b < 256 ∧ c < 256 ∧ d < 256 ∧
        s = mkDottedQuad a b c d := by
  have hdata : ∀ a b c d : Nat,
      (mkDottedQuad a b c d).data =
        (Nat.repr a).data ++ '.' :: ((Nat.repr b).data ++ '.' ::
          ((Nat.repr c).data ++ '.' :: (Nat.repr d).data)) := by
    intro a b c d
    simp [mkDottedQuad, String.data_append]
  rw [ipv4RegexTest, ipv4Chars_iff]
  constructor
  · rintro ⟨a, b, c, d, ha, hb, hc, hd, h⟩
    exact ⟨a, b, c, d, ha, hb, hc, hd, String.ext (by rw [h, hdata])⟩
  · rintro ⟨a, b, c, d, ha, hb, hc, hd, rfl⟩
    exact ⟨a, b, c, d, ha, hb, hc, hd, hdata a b c d⟩

/-! ## Claim theorems -/

/-- C6: IPv4 validation accepts exactly the strict dotted-quad strings (four
octets 0–255) after trimming, with the empty string accepted as unset:
`"256.1.1.1"`, `"1.2.3"`, `"1.2.3.4.5"`, `"abc"` are each rejected with the
error `"ipv4 must be a valid IPv4 address"`, while `"0.0.0.0"`,
`"255.255.255.255"`, `"192.168.1.1"` and `""` are each accepted. -/
theorem c6_ipv4_validation :
    (∀ s : String, ipv4RegexTest s = true ↔
      ∃ a b c d, a < 256 ∧ b < 256 ∧ c < 256 ∧ d < 256 ∧
        s = mkDottedQuad a b c d) ∧
    validateResolverPayload ⟨none, none, none, some (.str "256.1.1.1")⟩
        ⟨false, false, false⟩ =
      (⟨none, none, none, none⟩, ["ipv4 must be a valid IPv4 address"]) ∧
    validateResolverPayload ⟨none, none, none, some (.str "1.2.3")⟩
        ⟨false, false, false⟩ =
      (⟨none, none, none, none⟩, ["ipv4 must be a valid IPv4 address"]) ∧
    validateResolverPayload ⟨none, none, none, some (.str "1.2.3.4.5")⟩
        ⟨false, false, false⟩ =
      (⟨none, none, none, none⟩, ["ipv4 must be a valid IPv4 address"]) ∧
    validateResolverPayload ⟨none, none, none, some (.str "abc")⟩
        ⟨false, false, false⟩ =
      (⟨none, none, none, none⟩, ["ipv4 must be a valid IPv4 address"]) ∧
    validateResolverPayload ⟨none, none, none, some (.str "0.0.0.0")⟩
        ⟨false, false, false⟩ =
      (⟨none, none, none, some "0.0.0.0"⟩, []) ∧
    validateResolverPayload ⟨none, none, none, some (.str "255.255.255.255")⟩
        ⟨false, false, false⟩ =
      (⟨none, none, none, some "255.255.255.255"⟩, []) ∧
    validateResolverPayload ⟨none, none, none, some (.str "192.168.1.1")⟩
        ⟨false, false, false⟩ =
      (⟨none, none, none, some "192.168.1.1"⟩, []) ∧
    validateResolverPayload ⟨none, none, none, some (.str " 10.0.0.1 ")⟩
        ⟨false, false, false⟩ =
      (⟨none, none, none, some "10.0.0.1"⟩, []) ∧
    validateResolverPayload ⟨none, none, none, some (.str "")⟩
        ⟨false, false, false⟩ =
      (⟨none, none, none, some ""⟩, []) :=
  ⟨ipv4RegexTest_iff, by decide, by decide, by decide, by decide, by decide,
    by decide, by decide, by decide, by decide⟩

/-- C7 counterexample: the limit `0.5` (`Number("0.5") = 0.5`) is finite and
positive, so it escapes the fallback, yet `Math.floor` sends it to `0` — the
effective limit is 0, below the claimed minimum of 1. -/
theorem c7_fractional_limit_counterexample :
    parseLimit (some ((1 : ℚ)/2)) 100 500 = 0 ∧
    parseLimit (some ((1 : ℚ)/2)) 100 500 < 1 := by
  have hpos : ¬ ((1 : ℚ)/2 ≤ 0) := by norm_num
  have hfl : (⌊(1 : ℚ)/2⌋ : ℤ) = 0 := by
    rw [Int.floor_eq_zero_iff]
    constructor <;> norm_num
  have hmain : parseLimit (some ((1 : ℚ)/2)) 100 500 = 0 := by
    show (if (1 : ℚ)/2 ≤ 0 then 100 else min (⌊(1 : ℚ)/2⌋).toNat 500) = 0
    rw [if_neg hpos, hfl]
    rfl
  exact ⟨hmain, by rw [hmain]; norm_num⟩

/-- C7 amended: the effective limit is 100 when the parameter is absent
(`Number(null) = 0`), non-numeric, or non-positive; for positive values it
is `min ⌊value⌋ 500` — capped at 500, and at least 1 only when the value is
at least 1 (a fractional value below 1 yields limit 0).  The effective
offset is 0 when the parameter is absent, non-numeric, or negative, and the
floored value otherwise. -/
theorem c7_pagination_defaults :
    (parseLimit none 100 500 = 100) ∧
    (∀ q : ℚ, q ≤ 0 → parseLimit (some q) 100 500 = 100) ∧
    (∀ q : ℚ, 0 < q → parseLimit (some q) 100 500 = min (⌊q⌋).toNat 500) ∧
    (∀ q : ℚ, 1 ≤ q → 1 ≤ parseLimit (some q) 100 500) ∧
    (∀ q : ℚ, 500 ≤ q → parseLimit (some q) 100 500 = 500) ∧
    (parseOffset none = 0) ∧
    (∀ q : ℚ, q < 0 → parseOffset (some q) = 0) ∧
    (∀ q : ℚ, 0 ≤ q → parseOffset (some q) = (⌊q⌋).toNat) := by
  refine ⟨rfl, ?_, ?_, ?_, ?_, rfl, ?_, ?_⟩
  · intro q h; simp [parseLimit, h]
  · intro q h; simp [parseLimit, not_le.mpr h]
  · intro q h
    have h1 : (1 : ℤ) ≤ ⌊q⌋ := Int.le_floor.mpr (by exact_mod_cast h)
    have h0 : ¬ q ≤ 0 := not_le.mpr (lt_of_lt_of_le zero_lt_one h)
    simp only [parseLimit, if_neg h0]
    omega
  · intro q h
    have h1 : (500 : ℤ) ≤ ⌊q⌋ := Int.le_floor.mpr (by exact_mod_cast h)
    have h0 : ¬ q ≤ 0 := not_le.mpr (lt_of_lt_of_le (by norm_num) h)
    simp only [parseLimit, if_neg h0]
    omega
  · intro q h; simp [parseOffset, h]
  · intro q h; simp [parseOffset, not_lt.mpr h]

theorem anyFieldMsg_ne :
    anyFieldMsg ≠ "provider cannot be empty" ∧
    anyFieldMsg ≠ "provider is required" ∧
    anyFieldMsg ≠ "hostname cannot be empty" ∧
    anyFieldMsg ≠ "hostname is required" ∧
    anyFieldMsg ≠ "ipv4 must be a valid IPv4 address" := by
  decide

theorem anyFieldMsg_notin_provider (v : Option JVal) (req : Bool) :
    anyFieldMsg ∉ (validateProvider v req).2 := by
  obtain ⟨m1, m2, -, -, -⟩ := anyFieldMsg_ne
  rcases v with _ | jv
  · cases req <;> simp [validateProvider, m1, m2]
  · by_cases h : coerceTrim jv = "" <;> simp [validateProvider, h, m1]

theorem anyFieldMsg_notin_hostname (v : Option JVal) (req : Bool) :
    anyFieldMsg ∉ (validateHostname v req).2 := by
  obtain ⟨-, -, m3, m4, -⟩ := anyFieldMsg_ne
  rcases v with _ | jv
  · cases req <;> simp [validateHostname, m3, m4]
  · by_cases h : coerceTrim jv = "" <;> simp [validateHostname, h, m3]

theorem anyFieldMsg_notin_ipv4 (v : Option JVal) :
    anyFieldMsg ∉ (validateIpv4 v).2 := by
  obtain ⟨-, -, -, -, m5⟩ := anyFieldMsg_ne
  rcases v with _ | jv
  · simp [validateIpv4]
  · simp only [validateIpv4]
    split <;> simp [m5]

/-- C8 counterexample: in update mode, a body whose `provider` key is
present (bound to `""`) still triggers the at-least-one-field error, because
the check counts validated fields, not keys present in the body. -/
theorem c8_present_field_counterexample :
    (Body.provider ⟨some (.str ""), none, none, none⟩).isSome = true ∧
    anyFieldMsg ∈
      (validateResolverPayload ⟨some (.str ""), none, none, none⟩ updateOpts).2 := by
  decide

/-- C8 amended: in update mode the at-least-one-field error is reported
exactly when the validated field set is empty — no recognized field
contributed a value.  A key that is present but fails its own validation
(empty or non-string provider/hostname, invalid ipv4) does not count as
given, so the error can accompany a present key; conversely any field that
validates (alias always does when present) suppresses the error. -/
theorem c8_any_field_error_iff : ∀ body : Body,
    anyFieldMsg ∈ (validateResolverPayload body updateOpts).2 ↔
      (validateResolverPayload body updateOpts).1.isEmpty = true := by
  intro body
  have p1 := anyFieldMsg_notin_provider body.provider false
  have p2 := anyFieldMsg_notin_hostname body.hostname false
  have p3 := anyFieldMsg_notin_ipv4 body.ipv4
  simp only [validateResolverPayload, updateOpts, List.mem_append, Bool.true_and]
  by_cases hE : (⟨(validateProvider body.provider false).1,
      (validateHostname body.hostname false).1,
      body.«alias».map coerceTrim, (validateIpv4 body.ipv4).1⟩ : Fields).isEmpty
  · simp [hE, p1, p2, p3]
  · simp [hE, p1, p2, p3]

/-- C10: a non-string value for `ipv4` (or `alias`) passes validation
silently coerced to the empty string — no error for the field, the value
normalizes to `""`, and on update a non-string ipv4 clears the stored
address — whereas a non-string `provider` or `hostname` is rejected with
the corresponding "cannot be empty" error. -/
theorem c10_nonstring_coercion :
    (validateIpv4 (some JVal.nonstr) = (some "", [])) ∧
    (∀ body : Body, ∀ opts, body.ipv4 = some JVal.nonstr →
      (validateResolverPayload body opts).1.ipv4 = some "") ∧
    (∀ body : Body, ∀ opts, body.«alias» = some JVal.nonstr →
      (validateResolverPayload body opts).1.«alias» = some "") ∧
    (∀ body : Body, ∀ opts, body.provider = some JVal.nonstr →
      (validateResolverPayload body opts).1.provider = none ∧
        "provider cannot be empty" ∈ (validateResolverPayload body opts).2) ∧
    (∀ body : Body, ∀ opts, body.hostname = some JVal.nonstr →
      (validateResolverPayload body opts).1.hostname = none ∧
        "hostname cannot be empty" ∈ (validateResolverPayload body opts).2) ∧
    (updateResolverHandler ⟨[⟨1, "cf", "a.example.com", "", "1.2.3.4", false, 0, 0⟩], 2⟩
        1 ⟨none, none, none, some JVal.nonstr⟩ 5 (fun _ _ => true) =
      (⟨[⟨1, "cf", "a.example.com", "", "", false, 5, 0⟩], 2⟩, [],
        .record 200 ⟨1, "cf", "a.example.com", "", "", false, 5, 0⟩)) := by
  refine ⟨rfl, ?_, ?_, ?_, ?_, by decide⟩
  · intro body opts hb
    simp [validateResolverPayload, hb, validateIpv4, coerceTrim]
  · intro body opts hb
    simp [validateResolverPayload, hb, coerceTrim]
  · intro body opts hb
    simp [validateResolverPayload, hb, validateProvider, coerceTrim]
  · intro body opts hb
    simp [validateResolverPayload, hb, validateHostname, coerceTrim]

/-! ## The DNS reconciler's no-op and idempotence properties -/

theorem okWrites_length_le_one (env : DnsEnv) (pb : ProviderBehavior)
    (hostname : String) (ex : Option DnsRecord) (ipv4 : String) :
    (okWrites (syncDnsRecord env pb hostname ex ipv4)).length ≤ 1 := by
  unfold syncDnsRecord
  rcases ex with _ | rec
  · simp only [syncWrite]
    split_ifs <;> simp [okWrites]
  · simp only [syncWrite]
    by_cases hcc : rec.content = ipv4
    · rw [if_pos hcc]; split_ifs <;> simp [okWrites]
    · rw [if_neg hcc]; split_ifs <;> simp [okWrites]

theorem sync_noop_of_content_eq (env : DnsEnv) (pb : ProviderBehavior)
    (hostname : String) (rec : DnsRecord) (ipv4 : String)
    (h : rec.content = ipv4) :
    okWrites (syncDnsRecord env pb hostname (some rec) ipv4) = [] := by
  unfold syncDnsRecord
  simp only [syncWrite]
  rw [if_pos h]
  split_ifs <;> simp [okWrites]

/-- Each call either applies no write, or applies exactly one write after
which the provider's record for the hostname carries `ipv4`. -/
theorem sync_writes_cases (env : DnsEnv) (pb : ProviderBehavior)
    (hostname : String) (ex : Option DnsRecord) (ipv4 : String) :
    okWrites (syncDnsRecord env pb hostname ex ipv4) = [] ∨
    ∃ rec', applyWrites ex (okWrites (syncDnsRecord env pb hostname ex ipv4)) =
        some rec' ∧ rec'.content = ipv4 ∧
      (okWrites (syncDnsRecord env pb hostname ex ipv4)).length = 1 := by
  unfold syncDnsRecord
  rcases ex with _ | rec
  · simp only [syncWrite]
    split_ifs <;>
      first
      | (left; rfl)
      | (right; exact ⟨⟨"fresh", ipv4, some 1, some false⟩, rfl, rfl, rfl⟩)
  · simp only [syncWrite]
    by_cases hcc : rec.content = ipv4
    · rw [if_pos hcc]
      split_ifs <;> (left; rfl)
    · rw [if_neg hcc]
      split_ifs <;>
        first
        | (left; rfl)
        | (right;
            exact ⟨⟨rec.id, ipv4, some (rec.ttl.getD 1), some (rec.proxied.getD false)⟩,
              rfl, rfl, rfl⟩)

/-- C4: DNS reconcile is idempotent and conditionally a no-op: it performs
no provider write when ipv4 is empty, when sync credentials are not
configured (a skip, not an error), or when the looked-up A-record's content
already equals ipv4; consequently two reconciles of the same (hostname,
ipv4) — the second seeing the provider state the first left — apply at most
one provider write between them. -/
theorem c4_sync_idempotent :
    (∀ env pb hostname ex, syncDnsRecord env pb hostname ex "" = .ok []) ∧
    (∀ env pb hostname ex ipv4,
      (strFalsy env.token || strFalsy env.zoneId) = true →
      syncDnsRecord env pb hostname ex ipv4 = .ok []) ∧
    (∀ env pb hostname rec ipv4, DnsRecord.content rec = ipv4 →
      ProviderBehavior.fetchOk pb = true →
      syncDnsRecord env pb hostname (some rec) ipv4 = .ok []) ∧
    (∀ env1 env2 pb1 pb2 hostname ex ipv4,
      (okWrites (syncDnsRecord env1 pb1 hostname ex ipv4)).length +
        (okWrites (syncDnsRecord env2 pb2 hostname
          (applyWrites ex (okWrites (syncDnsRecord env1 pb1 hostname ex ipv4)))
          ipv4)).length ≤ 1) := by
  refine ⟨?_, ?_, ?_, ?_⟩
  · intro env pb hostname ex
    rfl
  · intro env pb hostname ex ipv4 h
    unfold syncDnsRecord
    by_cases hip : ipv4 = "" <;> simp [hip, h]
  · intro env pb hostname rec ipv4 hc hf
    unfold syncDnsRecord syncWrite
    by_cases hip : ipv4 = "" <;>
      by_cases hcred : (strFalsy env.token || strFalsy env.zoneId) = true <;>
        simp [hip, hcred, hf, hc]
  · intro env1 env2 pb1 pb2 hostname ex ipv4
    rcases sync_writes_cases env1 pb1 hostname ex ipv4 with h | ⟨rec', hst, hcontent, hlen⟩
    · rw [h]
      have : applyWrites ex ([] : List DnsWrite) = ex := rfl
      rw [this]
      simpa using okWrites_length_le_one env2 pb2 hostname ex ipv4
    · rw [hlen, hst, sync_noop_of_content_eq env2 pb2 hostname rec' ipv4 hcontent]
      simp

/-! ## Handler characterizations -/

/-- In update mode, a validation pass with no errors means at least one
field validated (else the at-least-one-field error would be present). -/
theorem validate_update_ne_empty (body : Body) (f : Fields)
    (h : validateResolverPayload body updateOpts = (f, [])) :
    f.isEmpty = false := by
  have herr := congrArg Prod.snd h
  have hfld := congrArg Prod.fst h
  simp only [validateResolverPayload, updateOpts, Bool.true_and] at herr hfld
  by_contra hne
  rw [Bool.not_eq_false] at hne
  rw [hfld, hne] at herr
  simp at herr

theorem findResolverById_false (st : Store) (id : Nat) :
    findResolverById st id false = st.rows.find? (updMatch id) := rfl

/-- A non-deleted row in the store takes its (provider, hostname) pair. -/
theorem pairTaken_of_mem (st : Store) (r : ResolverRow) (hr : r ∈ st.rows)
    (hnd : r.isDeleted = false) :
    pairTaken st none r.provider r.hostname = true := by
  unfold pairTaken
  rw [List.any_eq_true]
  exact ⟨r, hr, by simp [hnd]⟩

/-- A create whose validation passed and whose pair is free inserts the row
with fresh id, `isDeleted = false` and `ctime = mtime = now`, then branches
only on the DNS step. -/
theorem createResolverHandler_success (st : Store) (body : Body) (now : Nat)
    (dnsOk : String → String → Bool) (f : Fields) (p h : String)
    (hv : validateResolverPayload body createOpts = (f, []))
    (hp : f.provider = some p) (hh : f.hostname = some h)
    (hnc : pairTaken st none p h = false) :
    createResolverHandler st body now dnsOk =
      (let row : ResolverRow :=
        ⟨st.nextId, p, h, f.«alias».getD "", f.ipv4.getD "", false, now, now⟩
       if row.ipv4 ≠ "" then
         if dnsOk row.hostname row.ipv4 then
           (⟨st.rows ++ [row], st.nextId + 1⟩, [(row.hostname, row.ipv4)],
             .record 201 (toResolverDto row))
         else
           (⟨st.rows ++ [row], st.nextId + 1⟩, [(row.hostname, row.ipv4)],
             .failure 502 "Resolver created but DNS sync failed" [])
       else (⟨st.rows ++ [row], st.nextId + 1⟩, [], .record 201 (toResolverDto row))) := by
  unfold createResolverHandler dbInsert
  rw [hv]
  simp [hp, hh, Option.getD_some, hnc]

/-- A conflicting create returns 409 and leaves the store untouched. -/
theorem createResolverHandler_conflict (st : Store) (body : Body) (now : Nat)
    (dnsOk : String → String → Bool) (f : Fields) (p h : String)
    (hv : validateResolverPayload body createOpts = (f, []))
    (hp : f.provider = some p) (hh : f.hostname = some h)
    (hc : pairTaken st none p h = true) :
    createResolverHandler st body now dnsOk =
      (st, [],
        .failure 409 "A resolver with the same provider and hostname already exists" []) := by
  unfold createResolverHandler dbInsert
  rw [hv]
  simp [hp, hh, hc]

/-- An update whose validation passed, whose id matches a live row and whose
new pair is free maps the matched row through `updRow` and branches only on
the DNS step. -/
theorem updateResolverHandler_success (st : Store) (id : Nat) (body : Body)
    (now : Nat) (dnsOk : String → String → Bool) (f : Fields) (c : ResolverRow)
    (hv : validateResolverPayload body updateOpts = (f, []))
    (hfind : st.rows.find? (updMatch id) = some c)
    (hnc : pairTaken st (some id) (f.provider.getD c.provider)
      (f.hostname.getD c.hostname) = false) :
    updateResolverHandler st id body now dnsOk =
      (let u := updRow f id now c
       let st' : Store := ⟨st.rows.map (updRow f id now), st.nextId⟩
       if ipv4Changed f c && u.ipv4 ≠ "" then
         if dnsOk u.hostname u.ipv4 then
           (st', [(u.hostname, u.ipv4)], .record 200 (toResolverDto u))
         else
           (st', [(u.hostname, u.ipv4)],
             .failure 502 "Resolver updated but DNS sync failed" [])
       else (st', [], .record 200 (toResolverDto u))) := by
  have hne := validate_update_ne_empty body f hv
  have hfr : findResolverById st id false = some c := by
    rw [findResolverById_false]; exact hfind
  unfold updateResolverHandler dbUpdate
  rw [hv]
  simp [hne, hfr, hfind, hnc]

theorem deleteResolverHandler_success (st : Store) (id : Nat) (now : Nat)
    (r : ResolverRow) (hfind : st.rows.find? (updMatch id) = some r) :
    deleteResolverHandler st id now =
      (⟨st.rows.map (delRow id now), st.nextId⟩, [],
        .record 200 (toResolverDto (delRow id now r))) := by
  unfold deleteResolverHandler
  rw [hfind]

theorem deleteResolverHandler_notFound (st : Store) (id : Nat) (now : Nat)
    (hfind : st.rows.find? (updMatch id) = none) :
    deleteResolverHandler st id now =
      (st, [], .failure 404 "Resolver not found or already deleted" []) := by
  unfold deleteResolverHandler
  rw [hfind]

/-- The create handler either leaves the store alone or appends one row. -/
theorem create_store_shape (st : Store) (body : Body) (now : Nat)
    (dnsOk : String → String → Bool) :
    (createResolverHandler st body now dnsOk).1 = st ∨
    ∃ row, (createResolverHandler st body now dnsOk).1 =
      ⟨st.rows ++ [row], st.nextId + 1⟩ := by
  rcases hvv : validateResolverPayload body createOpts with ⟨f, errs⟩
  unfold createResolverHandler dbInsert
  simp only [hvv]
  split_ifs <;>
    first
    | (left; rfl)
    | (right; exact ⟨_, by dsimp only; split_ifs <;> rfl⟩)

/-- The update handler either leaves the store alone or maps every row
through `updRow` with the validated fields. -/
theorem update_store_shape (st : Store) (id : Nat) (body : Body) (now : Nat)
    (dnsOk : String → String → Bool) :
    (updateResolverHandler st id body now dnsOk).1 = st ∨
    (updateResolverHandler st id body now dnsOk).1 =
      ⟨st.rows.map (updRow (validateResolverPayload body updateOpts).1 id now),
        st.nextId⟩ := by
  rcases hvv : validateResolverPayload body updateOpts with ⟨f, errs⟩
  rcases hff : st.rows.find? (updMatch id) with _ | c <;>
    (unfold updateResolverHandler dbUpdate
     simp only [findResolverById_false, hvv, hff]
     split_ifs <;> first | (left; rfl) | (right; dsimp only; split_ifs <;> rfl))

/-- The delete handler either leaves the store alone or maps every row
through `delRow`. -/
theorem delete_store_shape (st : Store) (id : Nat) (now : Nat) :
    (deleteResolverHandler st id now).1 = st ∨
    (deleteResolverHandler st id now).1 =
      ⟨st.rows.map (delRow id now), st.nextId⟩ := by
  unfold deleteResolverHandler
  rcases hff : st.rows.find? (updMatch id) with _ | c
  · left; rfl
  · right; rfl

theorem updRow_id (f : Fields) (id now : Nat) (x : ResolverRow) :
    (updRow f id now x).id = x.id := by
  unfold updRow; split_ifs <;> rfl

theorem updRow_ctime (f : Fields) (id now : Nat) (x : ResolverRow) :
    (updRow f id now x).ctime = x.ctime := by
  unfold updRow; split_ifs <;> rfl

theorem delRow_id (id now : Nat) (x : ResolverRow) :
    (delRow id now x).id = x.id := by
  unfold delRow; split_ifs <;> rfl

theorem delRow_ctime (id now : Nat) (x : ResolverRow) :
    (delRow id now x).ctime = x.ctime := by
  unfold delRow; split_ifs <;> rfl

theorem updRow_unmatched (f : Fields) (id now : Nat) (x : ResolverRow)
    (h : updMatch id x = false) : updRow f id now x = x := by
  unfold updRow
  rw [h]
  rfl

theorem delRow_unmatched (id now : Nat) (x : ResolverRow)
    (h : updMatch id x = false) : delRow id now x = x := by
  unfold delRow
  rw [h]
  rfl

theorem updMatch_of_deleted (id : Nat) (x : ResolverRow)
    (h : x.isDeleted = true) : updMatch id x = false := by
  simp [updMatch, h]

theorem updRow_matched (f : Fields) (id now : Nat) (c : ResolverRow)
    (h : updMatch id c = true) :
    updRow f id now c =
      ⟨c.id, f.provider.getD c.provider, f.hostname.getD c.hostname,
        f.«alias».getD c.«alias», f.ipv4.getD c.ipv4, c.isDeleted, now, c.ctime⟩ := by
  simp [updRow, h]

theorem delRow_matched (id now : Nat) (c : ResolverRow)
    (h : updMatch id c = true) :
    delRow id now c =
      ⟨c.id, c.provider, c.hostname, c.«alias», c.ipv4, true, now, c.ctime⟩ := by
  simp [delRow, h]

/-- C1: the (provider, hostname) pair is unique among non-deleted records:
whenever a non-deleted row with pair (p, h) is in the store, a create whose
validated provider and hostname equal (p, h) returns the 409 conflict and
leaves the store unchanged; and starting from a store where the pair is
free, two identical creates yield exactly one 201 success and one 409. -/
theorem c1_pair_uniqueness :
    (∀ st body now dnsOk f r, r ∈ Store.rows st → ResolverRow.isDeleted r = false →
      validateResolverPayload body createOpts = (f, []) →
      Fields.provider f = some r.provider → Fields.hostname f = some r.hostname →
      createResolverHandler st body now dnsOk =
        (st, [],
          .failure 409 "A resolver with the same provider and hostname already exists" [])) ∧
    (∀ st body now now2 dnsOk f p h,
      validateResolverPayload body createOpts = (f, []) →
      Fields.provider f = some p → Fields.hostname f = some h →
      pairTaken st none p h = false →
      dnsOk h (f.ipv4.getD "") = true →
      (createResolverHandler st body now dnsOk).2.2 =
        .record 201 (toResolverDto
          ⟨st.nextId, p, h, f.«alias».getD "", f.ipv4.getD "", false, now, now⟩) ∧
      createResolverHandler (createResolverHandler st body now dnsOk).1 body now2 dnsOk =
        ((createResolverHandler st body now dnsOk).1, [],
          .failure 409 "A resolver with the same provider and hostname already exists" [])) := by
  have conflict : ∀ st body now dnsOk f r, r ∈ Store.rows st →
      ResolverRow.isDeleted r = false →
      validateResolverPayload body createOpts = (f, []) →
      Fields.provider f = some r.provider → Fields.hostname f = some r.hostname →
      createResolverHandler st body now dnsOk =
        (st, [],
          .failure 409 "A resolver with the same provider and hostname already exists" []) := by
    intro st body now dnsOk f r hr hnd hv hp hh
    exact createResolverHandler_conflict st body now dnsOk f r.provider r.hostname
      hv hp hh (pairTaken_of_mem st r hr hnd)
  refine ⟨conflict, ?_⟩
  intro st body now now2 dnsOk f p h hv hp hh hnc hdns
  have hrun := createResolverHandler_success st body now dnsOk f p h hv hp hh hnc
  have hfst : (createResolverHandler st body now dnsOk).1 =
      ⟨st.rows ++ [⟨st.nextId, p, h, f.«alias».getD "", f.ipv4.getD "", false, now, now⟩],
        st.nextId + 1⟩ := by
    rw [hrun]; dsimp only; split_ifs <;> rfl
  have hsnd : (createResolverHandler st body now dnsOk).2.2 =
      .record 201 (toResolverDto
        ⟨st.nextId, p, h, f.«alias».getD "", f.ipv4.getD "", false, now, now⟩) := by
    rw [hrun]; dsimp only
    split_ifs <;> rfl
  refine ⟨hsnd, ?_⟩
  have hrow_mem :
      (⟨st.nextId, p, h, f.«alias».getD "", f.ipv4.getD "", false, now, now⟩ : ResolverRow) ∈
        (createResolverHandler st body now dnsOk).1.rows := by
    rw [hfst]
    exact List.mem_append_right _ (List.mem_singleton_self _)
  exact conflict _ body now2 dnsOk f _ hrow_mem rfl hv hp hh

/-- C2: when the local mutation commits but the DNS reconcile fails, the
mutation is kept (the inserted/updated row is in the returned store) and the
operation answers with the distinct 502 sync-failure message. -/
theorem c2_sync_failure_kept :
    (∀ st body now dnsOk f p h ip,
      validateResolverPayload body createOpts = (f, []) →
      Fields.provider f = some p → Fields.hostname f = some h →
      Fields.ipv4 f = some ip → ip ≠ "" →
      pairTaken st none p h = false →
      dnsOk h ip = false →
      createResolverHandler st body now dnsOk =
        (⟨st.rows ++ [⟨st.nextId, p, h, f.«alias».getD "", ip, false, now, now⟩],
            st.nextId + 1⟩,
          [(h, ip)], .failure 502 "Resolver created but DNS sync failed" [])) ∧
    (∀ st id body now dnsOk f c nv,
      validateResolverPayload body updateOpts = (f, []) →
      List.find? (updMatch id) (Store.rows st) = some c →
      pairTaken st (some id) (f.provider.getD c.provider)
        (f.hostname.getD c.hostname) = false →
      Fields.ipv4 f = some nv → nv ≠ c.ipv4 → nv ≠ "" →
      dnsOk (f.hostname.getD c.hostname) nv = false →
      updateResolverHandler st id body now dnsOk =
        (⟨st.rows.map (updRow f id now), st.nextId⟩,
          [(f.hostname.getD c.hostname, nv)],
          .failure 502 "Resolver updated but DNS sync failed" []) ∧
      updRow f id now c ∈ (st.rows.map (updRow f id now)) ∧
      ResolverRow.ipv4 (updRow f id now c) = nv) := by
  constructor
  · intro st body now dnsOk f p h ip hv hp hh hip hipne hnc hdns
    rw [createResolverHandler_success st body now dnsOk f p h hv hp hh hnc]
    dsimp only
    rw [hip]
    simp only [Option.getD_some]
    split_ifs <;> first | rfl | simp_all
  · intro st id body now dnsOk f c nv hv hfind hnc hip hnv hne hdns
    have hm : updMatch id c = true := List.find?_some hfind
    have hu := updRow_matched f id now c hm
    have huip : (updRow f id now c).ipv4 = nv := by
      rw [hu]; dsimp only; rw [hip]; rfl
    have huh : (updRow f id now c).hostname = f.hostname.getD c.hostname := by
      rw [hu]
    have hchanged : ipv4Changed f c = true := by
      simp [ipv4Changed, hip, hnv]
    refine ⟨?_, List.mem_map_of_mem _ (List.mem_of_find?_eq_some hfind), huip⟩
    rw [updateResolverHandler_success st id body now dnsOk f c hv hfind hnc]
    dsimp only
    rw [huip, huh, hchanged]
    split_ifs <;> first | rfl | simp_all

/-- C3: in a successful update, the DNS reconciler is invoked exactly when
ipv4 was among the validated fields, its new value differs from the
pre-update value, and the new value is non-empty; and the one call made (if
any) carries the updated row's hostname and ipv4. -/
theorem c3_update_dns_call_iff :
    ∀ st id body now dnsOk f c,
      validateResolverPayload body updateOpts = (f, []) →
      List.find? (updMatch id) (Store.rows st) = some c →
      pairTaken st (some id) (f.provider.getD c.provider)
        (f.hostname.getD c.hostname) = false →
      ((updateResolverHandler st id body now dnsOk).2.1 ≠ [] ↔
        (∃ nv, Fields.ipv4 f = some nv ∧ nv ≠ c.ipv4 ∧ nv ≠ "")) ∧
      ((updateResolverHandler st id body now dnsOk).2.1 = [] ∨
        (updateResolverHandler st id body now dnsOk).2.1 =
          [((updRow f id now c).hostname, (updRow f id now c).ipv4)]) := by
  intro st id body now dnsOk f c hv hfind hnc
  have hm : updMatch id c = true := List.find?_some hfind
  have hcalls : (updateResolverHandler st id body now dnsOk).2.1 =
      (if ipv4Changed f c && (updRow f id now c).ipv4 ≠ "" then
        [((updRow f id now c).hostname, (updRow f id now c).ipv4)] else []) := by
    rw [updateResolverHandler_success st id body now dnsOk f c hv hfind hnc]
    dsimp only
    split_ifs <;> rfl
  have huip : (updRow f id now c).ipv4 = f.ipv4.getD c.ipv4 := by
    rw [updRow_matched f id now c hm]
  constructor
  · rw [hcalls]
    constructor
    · intro hne
      by_cases hcond :
          (ipv4Changed f c && (updRow f id now c).ipv4 ≠ "") = true
      · simp only [Bool.and_eq_true] at hcond
        obtain ⟨h1, h2⟩ := hcond
        rcases hipo : f.ipv4 with _ | nv
        · rw [ipv4Changed, hipo] at h1
          exact absurd h1 (by simp)
        · refine ⟨nv, rfl, ?_, ?_⟩
          · rw [ipv4Changed, hipo] at h1
            simpa using h1
          · rw [huip, hipo, Option.getD_some] at h2
            simpa using h2
      · rw [if_neg hcond] at hne
        exact absurd rfl hne
    · rintro ⟨nv, hipo, hnv, hne2⟩
      have h1 : ipv4Changed f c = true := by simp [ipv4Changed, hipo, hnv]
      have h2 : (updRow f id now c).ipv4 ≠ "" := by
        rw [huip, hipo, Option.getD_some]; exact hne2
      rw [if_pos (by simp [h1, h2])]
      simp
  · rw [hcalls]
    split_ifs <;> simp

/-- C9: frame conditions of update and delete — only the submitted fields
and mtime change on update (id, ctime, isDeleted and unsubmitted fields are
preserved, untouched rows are unchanged); only isDeleted and mtime change on
delete; and across create, update and delete, every pre-existing row keeps a
row with its id and its ctime, so ctime is never mutated after creation. -/
theorem c9_update_delete_frame :
    (∀ st id body now dnsOk f c,
      validateResolverPayload body updateOpts = (f, []) →
      List.find? (updMatch id) (Store.rows st) = some c →
      pairTaken st (some id) (f.provider.getD c.provider)
        (f.hostname.getD c.hostname) = false →
      (updateResolverHandler st id body now dnsOk).1 =
        ⟨st.rows.map (updRow f id now), st.nextId⟩ ∧
      updRow f id now c =
        ⟨c.id, f.provider.getD c.provider, f.hostname.getD c.hostname,
          f.«alias».getD c.«alias», f.ipv4.getD c.ipv4, c.isDeleted, now, c.ctime⟩ ∧
      (∀ x ∈ Store.rows st, updMatch id x = false → updRow f id now x = x)) ∧
    (∀ st id now r,
      List.find? (updMatch id) (Store.rows st) = some r →
      deleteResolverHandler st id now =
        (⟨st.rows.map (delRow id now), st.nextId⟩, [],
          .record 200 (toResolverDto
            ⟨r.id, r.provider, r.hostname, r.«alias», r.ipv4, true, now, r.ctime⟩)) ∧
      (∀ x ∈ Store.rows st, updMatch id x = false → delRow id now x = x)) ∧
    (∀ st body id now dnsOk x, x ∈ Store.rows st →
      (∃ y ∈ (createResolverHandler st body now dnsOk).1.rows,
        ResolverRow.id y = x.id ∧ ResolverRow.ctime y = x.ctime) ∧
      (∃ y ∈ (updateResolverHandler st id body now dnsOk).1.rows,
        ResolverRow.id y = x.id ∧ ResolverRow.ctime y = x.ctime) ∧
      (∃ y ∈ (deleteResolverHandler st id now).1.rows,
        ResolverRow.id y = x.id ∧ ResolverRow.ctime y = x.ctime)) := by
  refine ⟨?_, ?_, ?_⟩
  · intro st id body now dnsOk f c hv hfind hnc
    have hm := List.find?_some hfind
    refine ⟨?_, updRow_matched f id now c hm,
      fun x _ hx => updRow_unmatched f id now x hx⟩
    rw [updateResolverHandler_success st id body now dnsOk f c hv hfind hnc]
    dsimp only
    split_ifs <;> rfl
  · intro st id now r hfind
    have hm := List.find?_some hfind
    refine ⟨?_, fun x _ hx => delRow_unmatched id now x hx⟩
    rw [deleteResolverHandler_success st id now r hfind, delRow_matched id now r hm]
  · intro st body id now dnsOk x hx
    refine ⟨?_, ?_, ?_⟩
    · rcases create_store_shape st body now dnsOk with h | ⟨row, h⟩
      · exact ⟨x, by rw [h]; exact hx, rfl, rfl⟩
      · exact ⟨x, by rw [h]; exact List.mem_append_left _ hx, rfl, rfl⟩
    · rcases update_store_shape st id body now dnsOk with h | h
      · exact ⟨x, by rw [h]; exact hx, rfl, rfl⟩
      · exact ⟨updRow (validateResolverPayload body updateOpts).1 id now x,
          by rw [h]; exact List.mem_map_of_mem _ hx,
          updRow_id _ _ _ _, updRow_ctime _ _ _ _⟩
    · rcases delete_store_shape st id now with h | h
      · exact ⟨x, by rw [h]; exact hx, rfl, rfl⟩
      · exact ⟨delRow id now x,
          by rw [h]; exact List.mem_map_of_mem _ hx,
          delRow_id _ _ _, delRow_ctime _ _ _⟩

/-! ## Soft delete -/

/-- The items of a list response. -/
def listItems : ApiResult → List ResolverDto
  | .listResult items _ _ _ => items
  | _ => []

theorem mem_insertDesc {x r : ResolverRow} {l : List ResolverRow} :
    x ∈ insertDesc r l ↔ x = r ∨ x ∈ l := by
  induction l with
  | nil => simp [insertDesc]
  | cons y ys ih =>
    unfold insertDesc
    split_ifs
    · simp
    · simp only [List.mem_cons, ih]
      tauto

theorem mem_sortByIdDesc {x : ResolverRow} {l : List ResolverRow} :
    x ∈ sortByIdDesc l ↔ x ∈ l := by
  induction l with
  | nil => simp [sortByIdDesc]
  | cons y ys ih => simp [sortByIdDesc, mem_insertDesc, ih]

/-- After a soft delete of `id`, every row carrying that id is deleted. -/
theorem after_delete_id_deleted (st : Store) (id now : Nat) :
    ∀ x ∈ st.rows.map (delRow id now), ResolverRow.id x = id →
      ResolverRow.isDeleted x = true := by
  intro x hx hid
  obtain ⟨y, hy, rfl⟩ := List.mem_map.mp hx
  by_cases hm : updMatch id y = true
  · rw [delRow_matched id now y hm]
  · rw [delRow_unmatched id now y (by simpa using hm)]
    have hyid : y.id = id := by rw [← delRow_id id now y]; exact hid
    rw [delRow_unmatched id now y (by simpa using hm)] at hid
    simp [updMatch, hid] at hm
    exact hm

/-- After a soft delete of `id`, the non-deleted lookup for that id fails. -/
theorem find_updMatch_after_delete (st : Store) (id now : Nat) :
    (st.rows.map (delRow id now)).find? (updMatch id) = none := by
  rw [List.find?_eq_none]
  intro x hx
  obtain ⟨y, hy, rfl⟩ := List.mem_map.mp hx
  by_cases hm : updMatch id y = true
  · rw [delRow_matched id now y hm]
    simp [updMatch]
  · rw [delRow_unmatched id now y (by simpa using hm)]
    simpa using hm

theorem updateResolverHandler_notFound (st : Store) (id : Nat) (body : Body)
    (now : Nat) (dnsOk : String → String → Bool) (f : Fields)
    (hv : validateResolverPayload body updateOpts = (f, []))
    (hfind : st.rows.find? (updMatch id) = none) :
    updateResolverHandler st id body now dnsOk =
      (st, [], .failure 404 "Resolver not found or already deleted" []) := by
  have hne := validate_update_ne_empty body f hv
  have hfr : findResolverById st id false = none := by
    rw [findResolverById_false]; exact hfind
  unfold updateResolverHandler
  rw [hv]
  simp [hne, hfr]

/-- C5: soft delete is irreversible and exclusionary: delete matches only a
non-deleted row with the given id, marks it deleted with a fresh mtime while
retaining the row and performing no DNS call; afterwards update and delete
of that id return 404, the default get returns 404, get with
includeDeleted=true returns the record with isDeleted=true, the default
list never shows that id, and no handler ever turns isDeleted back off. -/
theorem c5_soft_delete :
    (∀ st id now, (deleteResolverHandler st id now).2.1 = ([] : List DnsCall)) ∧
    (∀ st id now r, List.find? (updMatch id) (Store.rows st) = some r →
      ResolverRow.isDeleted r = false ∧
      deleteResolverHandler st id now =
        (⟨st.rows.map (delRow id now), st.nextId⟩, [],
          .record 200 (toResolverDto
            ⟨r.id, r.provider, r.hostname, r.«alias», r.ipv4, true, now, r.ctime⟩)) ∧
      (st.rows.map (delRow id now)).length = st.rows.length) ∧
    (∀ st id now, List.find? (updMatch id) (Store.rows st) ≠ none →
      (∀ body now2 dnsOk2 f, validateResolverPayload body updateOpts = (f, []) →
        updateResolverHandler ⟨st.rows.map (delRow id now), st.nextId⟩ id body
            now2 dnsOk2 =
          (⟨st.rows.map (delRow id now), st.nextId⟩, [],
            .failure 404 "Resolver not found or already deleted" [])) ∧
      (∀ now2, deleteResolverHandler ⟨st.rows.map (delRow id now), st.nextId⟩ id now2 =
        (⟨st.rows.map (delRow id now), st.nextId⟩, [],
          .failure 404 "Resolver not found or already deleted" [])) ∧
      getResolverHandler ⟨st.rows.map (delRow id now), st.nextId⟩ id none =
        .failure 404 "Resolver not found" [] ∧
      (∃ dto, getResolverHandler ⟨st.rows.map (delRow id now), st.nextId⟩ id
          (some "true") = .record 200 dto ∧ ResolverDto.isDeleted dto = true) ∧
      (∀ pf hf lim off d,
        d ∈ listItems (listResolversHandler ⟨st.rows.map (delRow id now), st.nextId⟩
          ⟨none, pf, hf, lim, off⟩) → ResolverDto.id d ≠ id)) ∧
    (∀ st body id now dnsOk x, x ∈ Store.rows st → ResolverRow.isDeleted x = true →
      x ∈ (createResolverHandler st body now dnsOk).1.rows ∧
      x ∈ (updateResolverHandler st id body now dnsOk).1.rows ∧
      x ∈ (deleteResolverHandler st id now).1.rows) := by
  refine ⟨?_, ?_, ?_, ?_⟩
  · intro st id now
    rcases hf : st.rows.find? (updMatch id) with _ | r
    · rw [deleteResolverHandler_notFound st id now hf]
    · rw [deleteResolverHandler_success st id now r hf]
  · intro st id now r hfind
    have hm := List.find?_some hfind
    have hnd : r.isDeleted = false := by
      simp [updMatch] at hm
      exact hm.2
    exact ⟨hnd,
      by rw [deleteResolverHandler_success st id now r hfind,
        delRow_matched id now r hm],
      by simp⟩
  · intro st id now hne0
    obtain ⟨r, hfind⟩ := Option.ne_none_iff_exists'.mp hne0
    have hm := List.find?_some hfind
    have hrid : r.id = id := by
      simp [updMatch] at hm
      exact hm.1
    refine ⟨?_, ?_, ?_, ?_, ?_⟩
    · intro body now2 dnsOk2 f hv
      exact updateResolverHandler_notFound _ id body now2 dnsOk2 f hv
        (find_updMatch_after_delete st id now)
    · intro now2
      exact deleteResolverHandler_notFound _ id now2
        (find_updMatch_after_delete st id now)
    · unfold getResolverHandler
      have h404 : findResolverById ⟨st.rows.map (delRow id now), st.nextId⟩ id
          (parseBoolean none) = none := by
        rw [show parseBoolean none = false from rfl, findResolverById_false]
        exact find_updMatch_after_delete st id now
      rw [h404]
    · have hfmem : delRow id now r ∈ st.rows.map (delRow id now) :=
        List.mem_map_of_mem _ (List.mem_of_find?_eq_some hfind)
      have hpred : ((delRow id now r).id == id &&
          (true || !(delRow id now r).isDeleted)) = true := by
        simp [delRow_id, hrid]
      have hsome : ((st.rows.map (delRow id now)).find?
          (fun x => x.id == id && (true || !x.isDeleted))).isSome :=
        List.find?_isSome.mpr ⟨_, hfmem, hpred⟩
      obtain ⟨x, hxfind⟩ := Option.isSome_iff_exists.mp hsome
      have hxid : x.id = id := by
        have hpx := List.find?_some hxfind
        simp at hpx
        exact hpx
      have hxdel : x.isDeleted = true :=
        after_delete_id_deleted st id now x (List.mem_of_find?_eq_some hxfind) hxid
      refine ⟨toResolverDto x, ?_, hxdel⟩
      unfold getResolverHandler
      have hfound : findResolverById ⟨st.rows.map (delRow id now), st.nextId⟩ id
          (parseBoolean (some "true")) = some x := by
        rw [show parseBoolean (some "true") = true from by decide]
        unfold findResolverById
        exact hxfind
      rw [hfound]
    · intro pf hf lim off d hd
      simp only [listResolversHandler, listItems] at hd
      obtain ⟨y, hy, rfl⟩ := List.mem_map.mp hd
      have hy1 := List.drop_subset _ _ (List.take_subset _ _ hy)
      have hy2 := mem_sortByIdDesc.mp hy1
      rw [List.mem_filter] at hy2
      obtain ⟨hymem, hypred⟩ := hy2
      intro hdid
      have hyid : y.id = id := hdid
      have hydel := after_delete_id_deleted st id now y hymem hyid
      unfold rowMatchesList at hypred
      simp [hydel, parseBoolean] at hypred
  · intro st body id now dnsOk x hx hdel
    refine ⟨?_, ?_, ?_⟩
    · rcases create_store_shape st body now dnsOk with h | ⟨row, h⟩
      · rw [h]; exact hx
      · rw [h]; exact List.mem_append_left _ hx
    · rcases update_store_shape st id body now dnsOk with h | h
      · rw [h]; exact hx
      · rw [h]
        have hmem := List.mem_map_of_mem
          (updRow (validateResolverPayload body updateOpts).1 id now) hx
        rwa [updRow_unmatched _ _ _ _ (updMatch_of_deleted id x hdel)] at hmem
    · rcases delete_store_shape st id now with h | h
      · rw [h]; exact hx
      · rw [h]
        have hmem := List.mem_map_of_mem (delRow id now) hx
        rwa [delRow_unmatched _ _ _ (updMatch_of_deleted id x hdel)] at hmem

/-- A concrete run of the C3 condition: updating ipv4 from 1.2.3.4 to
1.2.3.5 on record 1 makes exactly one DNS call. -/
theorem c3_update_dns_call_iff_witness :
    ((updateResolverHandler ⟨[⟨1, "cf", "a.example.com", "", "1.2.3.4", false, 0, 0⟩], 2⟩
        1 ⟨none, none, none, some (.str "1.2.3.5")⟩ 5 (fun _ _ => true)).2.1 ≠ [] ↔
      (∃ nv, Fields.ipv4 ⟨none, none, none, some "1.2.3.5"⟩ = some nv ∧
        nv ≠ "1.2.3.4" ∧ nv ≠ "")) ∧
    ((updateResolverHandler ⟨[⟨1, "cf", "a.example.com", "", "1.2.3.4", false, 0, 0⟩], 2⟩
        1 ⟨none, none, none, some (.str "1.2.3.5")⟩ 5 (fun _ _ => true)).2.1 = [] ∨
      (updateResolverHandler ⟨[⟨1, "cf", "a.example.com", "", "1.2.3.4", false, 0, 0⟩], 2⟩
        1 ⟨none, none, none, some (.str "1.2.3.5")⟩ 5 (fun _ _ => true)).2.1 =
        [((updRow ⟨none, none, none, some "1.2.3.5"⟩ 1 5
            ⟨1, "cf", "a.example.com", "", "1.2.3.4", false, 0, 0⟩).hostname,
          (updRow ⟨none, none, none, some "1.2.3.5"⟩ 1 5
            ⟨1, "cf", "a.example.com", "", "1.2.3.4", false, 0, 0⟩).ipv4)]) :=
  c3_update_dns_call_iff ⟨[⟨1, "cf", "a.example.com", "", "1.2.3.4", false, 0, 0⟩], 2⟩
    1 ⟨none, none, none, some (.str "1.2.3.5")⟩ 5 (fun _ _ => true)
    ⟨none, none, none, some "1.2.3.5"⟩
    ⟨1, "cf", "a.example.com", "", "1.2.3.4", false, 0, 0⟩
    (by decide) (by decide) (by decide)

end AutomateDns
